import Mathlib

/-!
Verification of the fMRI-Viewer field-interpretation core.

This file is a shallow embedding, in Lean 4, of the parts of the
repository that the verified properties talk about:

* `interpreters/slice_timing_interpreter.py` — vendor dispatch,
  acquisition-order extraction and acquisition-pattern classification;
* `interpreters/basic_interpreter.py` / `specific_interpreters.py` —
  the age interpreter;
* `dicom_utils.py` — the gate `_should_interpret_slice_timing`;
* `field_organization/field_manager.py` — the field catalog
  (complete list / filtered view, translations, language changes);
* `settings/settings.py` — the settings manager
  (`initialize_filter_settings`, visibility lookups, persistence).

Python dictionaries that are produced as outputs are modelled as
association lists (`List (String × String)`), which also record the
insertion order; dictionaries used as lookup tables are association
lists queried with `List.lookup`.  Numeric values that Python holds as
`float` are modelled as `ℚ`: every claim proved here depends only on
order comparisons and exact arithmetic on the values, never on
rounding behaviour.  Machine `int`s are modelled as `Nat`/`Int` with
`Int` wherever Python subtraction may go negative.
-/

namespace FMRIViewer

/-! ## Python string primitives used by the source -/

/-- Python's `needle in haystack` substring test, on character lists. -/
def containsSub (needle : List Char) : List Char → Bool
  | [] => needle.isEmpty
  | c :: rest => needle.isPrefixOf (c :: rest) || containsSub needle rest

/-- Python's `needle in haystack` on strings. -/
def strIn (needle haystack : String) : Bool :=
  containsSub needle.toList haystack.toList

/-- Python's `str.upper()`.  The tag values the source upper-cases are
ASCII, where Python's `upper` and `Char.toUpper` agree. -/
def pyToUpper (s : String) : String :=
  String.mk (s.toList.map Char.toUpper)

/-- `str(x)` for an optional string coming out of `dict.get`: the
timing-context dictionary built in `dicom_utils._interpret_metadata`
always carries the key, so a missing DICOM tag shows up as Python
`None`, and `str(None) = "None"`. -/
def pyStrOpt : Option String → String
  | none => "None"
  | some s => s

/-- Python truthiness of an optional string (`if x:`): `None` and the
empty string are falsy. -/
def truthyStr : Option String → Bool
  | none => false
  | some s => !s.isEmpty

/-- Python truthiness of an optional number (`if x:`): `None` and `0`
are falsy. -/
def truthyQ : Option ℚ → Bool
  | none => false
  | some q => !(q == 0)

/-- Python's `repr` of a list of ints, e.g. `[2, 4, 1, 5, 3]`. -/
def pyReprList (l : List Nat) : String :=
  "[" ++ String.intercalate ", " (l.map toString) ++ "]"

/-! ## Slice-timing context (the dict built in `dicom_utils.py`) -/

/-- The `timing_context` dictionary assembled by
`DicomController._interpret_metadata`.  Raw tag values that the
interpreter only ever passes through `str(...)` are modelled as
`Option String`; the Siemens per-slice reference times
(`MosaicRefAcqTimes`, tag (0019,1029)) are modelled as the numeric
sequence they decode to. -/
structure TimingContext where
  manufacturer : Option String
  device_model : Option String
  scanning_sequence : Option String
  image_type : Option String
  tr : Option ℚ
  rows : Option Nat
  columns : Option Nat
  slice_timing_siemens : Option (List ℚ)
  trigger_time : Option String
  rtia_timer : Option String
  protocol_data_block : Option String
  temporal_position_identifier : Option String
  frame_acquisition_time : Option String

/-! ## `_extract_acquisition_order` -/

instance : DecidableRel (fun p q : ℚ × Nat => p.1 ≤ q.1) :=
  fun p q => inferInstanceAs (Decidable (p.1 ≤ q.1))

/-- `_extract_acquisition_order`: pair each timestamp with its 1-based
position, stably sort ascending by timestamp, return the permuted
positions.  Python's `sorted` with `key=lambda x: x[0]` is a stable
sort by the first component; `List.insertionSort` with a `≤` relation
has exactly that stability.  On an empty array the source computes
`min(timing_array)`, which raises `ValueError`, is caught, and yields
`None`; non-numeric raw elements (the other `except` route) are
outside this numeric model.  The `(min, max)` of the array, stored by
the source in the module global `_last_timing_range`, is recovered
separately by `timingRangeOf` below and threaded explicitly. -/
def orderOf (timing : List ℚ) : List Nat :=
  let pairs := timing.zip (List.range' 1 timing.length)
  (List.insertionSort (fun p q => p.1 ≤ q.1) pairs).map Prod.snd

/-- The `Optional` wrapper of `_extract_acquisition_order`: the order
itself is `orderOf`; an empty array makes `min(timing_array)` raise,
so the source's `except` path returns `None`. -/
def extract_acquisition_order (timing : List ℚ) : Option (List Nat) :=
  match timing with
  | [] => none
  | _ :: _ => some (orderOf timing)

/-- `min(timing_array)` / `max(timing_array)` for the nonempty case
(the module global `_last_timing_range`, made explicit). -/
def timingRangeOf (timing : List ℚ) : ℚ × ℚ :=
  match timing with
  | [] => (0, 0)
  | x :: xs => (xs.foldl min x, xs.foldl max x)

/-! ## Pattern classification helpers -/

/-- `_is_center_out_pattern`: the first `min(4, n//4)` acquired
indices all lie strictly within `n//4` of the center index `n//2`. -/
def is_center_out_pattern (order : List Nat) : Bool :=
  let n := order.length
  let center := n / 2
  let firstFew := order.take (min 4 (n / 4))
  firstFew.all (fun x => ((x : ℤ) - center).natAbs < n / 4)

/-- `_is_out_center_pattern`: the first `min(4, n//4)` acquired
indices are all within 2 of either boundary (`x <= 2 or x >= n-1`). -/
def is_out_center_pattern (order : List Nat) : Bool :=
  let n := order.length
  let firstFew := order.take (min 4 (n / 4))
  firstFew.all (fun x => decide (x ≤ 2) || decide ((n : ℤ) - 1 ≤ (x : ℤ)))

/-- `_is_multiband_pattern`: only for `n >= 8`, compute the gaps
`order[i+1] - order[i]` for `i in range(min(4, len(order)-1))` — note:
four gaps, i.e. the differences between the first five elements — and
succeed when they are all equal and the first one exceeds 1
(`len(set(gaps)) == 1 and gaps[0] > 1`). -/
def is_multiband_pattern (order : List Nat) : Bool :=
  let n := order.length
  if 8 ≤ n then
    let gaps := (List.range (min 4 (n - 1))).map
      (fun i => (order.getD (i + 1) 0 : ℤ) - (order.getD i 0 : ℤ))
    match gaps with
    | [] => false
    | g :: rest => rest.all (· == g) && decide (1 < g)
  else false

/-- The classification outcome of `_analyze_acquisition_pattern`:
`pattern_name` plus the free-text `details` (every branch of the
source sets both). -/
structure PatternInfo where
  pattern_name : String
  details : String
deriving DecidableEq

/-- `_analyze_acquisition_pattern`.  The source splits the order at
`n // 2`, checks the two interleaved shapes first, then sequential
ascending/descending, then center-out, out-center, multiband, and
falls back to custom.  The `timing_range` entry the source copies from
the module global is threaded separately (see `timingRangeOf`), and
the write-only `is_multiband` key is not observable in any output. -/
def analyze_acquisition_pattern (order : List Nat) : PatternInfo :=
  let n := order.length
  let firstHalf := order.take (n / 2)
  let secondHalf := order.drop (n / 2)
  let allOddFirst := firstHalf.all (fun x => x % 2 == 1)
  let allEvenFirst := firstHalf.all (fun x => x % 2 == 0)
  let allOddSecond := secondHalf.all (fun x => x % 2 == 1)
  let allEvenSecond := secondHalf.all (fun x => x % 2 == 0)
  if allOddFirst && allEvenSecond then
    ⟨"Interleaved (Odd-Even)", "Odd slices first (1,3,5...), then even slices (2,4,6...)"⟩
  else if allEvenFirst && allOddSecond then
    ⟨"Interleaved (Even-Odd)", "Even slices first (2,4,6...), then odd slices (1,3,5...)"⟩
  else if order == List.range' 1 n then
    ⟨"Sequential (Ascending)", "Slices acquired in ascending order (1→N)"⟩
  else if order == (List.range' 1 n).reverse then
    ⟨"Sequential (Descending)", "Slices acquired in descending order (N→1)"⟩
  else if is_center_out_pattern order then
    ⟨"Center-Out", "Acquisition from center slices to edge slices"⟩
  else if is_out_center_pattern order then
    ⟨"Out-Center", "Acquisition from edge slices to center slices"⟩
  else if is_multiband_pattern order then
    ⟨"Multi-band/SMS", "Simultaneous multi-slice acquisition detected"⟩
  else
    ⟨"Custom/Non-standard",
      "Non-standard pattern. First few: " ++ pyReprList (order.take 5) ++ "..."⟩

/-- `_format_order_preview` with the default `preview_length = 8`. -/
def format_order_preview (order : List Nat) : String :=
  if order.length ≤ 8 then pyReprList order
  else
    pyReprList (order.take 8) ++ "... (total: " ++ toString order.length ++ " slices)"

/-! ## Number formatting (`f"{x:.1f}"`) -/

/-- Round to the nearest integer, ties to even (Python's float
formatting rounds half to even). -/
def roundHalfEven (q : ℚ) : ℤ :=
  let f := Rat.floor q
  let r := q - (f : ℚ)
  if r < 1/2 then f
  else if 1/2 < r then f + 1
  else if f % 2 = 0 then f else f + 1

/-- `f"{x:.1f}"`: fixed-point rendering with one decimal digit. -/
def fmtFix1 (q : ℚ) : String :=
  let scaled := roundHalfEven (q * 10)
  let sign := if scaled < 0 then "-" else ""
  let a := scaled.natAbs
  sign ++ toString (a / 10) ++ "." ++ toString (a % 10)

/-! ## Vendor paths -/

/-- `_interpret_siemens_timing`.  The `try`/`except` wrapper of the
source can only fire, within this numeric model, through the empty
`MosaicRefAcqTimes` array (handled inside `extract_acquisition_order`);
its parse-error dictionary is exactly the `"Failed to parse timing
data"` result below. -/
def interpret_siemens_timing (ctx : TimingContext) : List (String × String) :=
  match ctx.slice_timing_siemens with
  | none =>
    if truthyStr ctx.frame_acquisition_time then
      [("Slice Timing Available", "Yes (Frame Acquisition Time)"),
       ("Slice Timing Source", "Public tag (0018,9074)"),
       ("Note", "Using frame acquisition time instead of MosaicRefAcqTimes")]
    else
      [("Slice Timing Available", "No"),
       ("Slice Timing Note", "Siemens timing tags not found")]
  | some timing =>
    match extract_acquisition_order timing with
    | none =>
      [("Slice Timing Available", "Error"),
       ("Slice Timing Error", "Failed to parse timing data")]
    | some order =>
      if order.isEmpty then
        [("Slice Timing Available", "Error"),
         ("Slice Timing Error", "Failed to parse timing data")]
      else
        let pattern := analyze_acquisition_pattern order
        let imageType := pyToUpper (pyStrOpt ctx.image_type)
        let isMosaic := strIn "MOSAIC" imageType
        let range := timingRangeOf timing
        let base :=
          [("Slice Timing Available", "Yes"),
           ("Slice Timing Source", "Siemens MosaicRefAcqTimes (0019,1029)"),
           ("Number of Slices", toString order.length),
           ("Acquisition Order (first 8)", format_order_preview order),
           ("Acquisition Pattern", pattern.pattern_name),
           ("Image Type", if isMosaic then "Mosaic" else "Standard"),
           ("Pattern Details", pattern.details),
           ("Timing Range (ms)", fmtFix1 range.1 ++ " - " ++ fmtFix1 range.2)]
        if truthyQ ctx.tr then
          base ++ [("Estimated Slice Interval (ms)",
                    fmtFix1 (ctx.tr.getD 0 / (order.length : ℚ)))]
        else base

/-- `_interpret_ge_timing`: trigger time, then RTIA timer, then
protocol data block, first available wins; all three absent reports
"not found". -/
def interpret_ge_timing (ctx : TimingContext) : List (String × String) :=
  match ctx.trigger_time with
  | some t =>
    [("Slice Timing Available", "Yes"),
     ("Slice Timing Source", "GE Trigger Time (0018,1060)"),
     ("Trigger Time", t),
     ("Note", "Slice timing can be calculated from trigger times")]
  | none =>
    match ctx.rtia_timer with
    | some r =>
      [("Slice Timing Available", "Yes"),
       ("Slice Timing Source", "GE RTIA Timer (0021,105E)"),
       ("RTIA Timer", r),
       ("Note", "Using RTIA timer for slice timing")]
    | none =>
      match ctx.protocol_data_block with
      | some _ =>
        [("Slice Timing Available", "Partial"),
         ("Slice Timing Source", "GE Protocol Data Block (0025,101B)"),
         ("Note", "Only acquisition order available (sequential/interleaved), no precise timing"),
         ("Warning", "Timing estimation assumes continuous acquisition (TA ≈ TR)")]
      | none =>
        [("Slice Timing Available", "No"),
         ("Slice Timing Note", "GE timing information not found in standard tags")]

/-- `_interpret_philips_timing`. -/
def interpret_philips_timing (ctx : TimingContext) : List (String × String) :=
  match ctx.temporal_position_identifier with
  | some _ =>
    [("Slice Timing Available", "Partial"),
     ("Slice Timing Source", "Philips Temporal Position (0020,0100)"),
     ("Note", "Limited timing information available")]
  | none =>
    match ctx.frame_acquisition_time with
    | some _ =>
      [("Slice Timing Available", "Partial"),
       ("Slice Timing Source", "Frame Acquisition Time (0018,9074)"),
       ("Note", "Using frame acquisition time")]
    | none =>
      [("Slice Timing Available", "No"),
       ("Slice Timing Note", "Philips typically does not store slice timing in DICOM headers"),
       ("Recommendation", "Check scanner console or protocol documentation")]

/-- `interpret_slice_timing`: manufacturer substring dispatch, checked
in the order Siemens, GE, Philips, on the upper-cased string. -/
def interpret_slice_timing (ctx : TimingContext) : List (String × String) :=
  let manufacturer := pyToUpper (pyStrOpt ctx.manufacturer)
  if strIn "SIEMENS" manufacturer then interpret_siemens_timing ctx
  else if strIn "GE" manufacturer then interpret_ge_timing ctx
  else if strIn "PHILIPS" manufacturer then interpret_philips_timing ctx
  else [("Slice Timing", "Unsupported manufacturer")]

/-! ## `_should_interpret_slice_timing` (dicom_utils.py) -/

/-- The slice of the `raw_meta` dictionary that
`_should_interpret_slice_timing` reads.  As with `TimingContext`, the
dictionary always carries every key, so absent tags are Python `None`
(`pyStrOpt`), and `image_type`'s truthiness test sees `None` as falsy
and any non-empty string representation as truthy. -/
structure RawMeta where
  scanning_sequence : Option String
  image_type : Option String
  manufacturer : Option String
  slice_timing_siemens : Option (List ℚ)
  trigger_time : Option String
  rtia_timer : Option String
  protocol_data_block : Option String
  temporal_position_identifier : Option String
  frame_acquisition_time : Option String

/-- `_should_interpret_slice_timing`: require the Echo-Planar marker
`"EP"` in the scanning sequence; if an image type is present, require
one of the EPI indicators in it; require a supported manufacturer
substring; finally require at least one timing tag to be present. -/
def should_interpret_slice_timing (raw : RawMeta) : Bool :=
  let scanningSeq := pyToUpper (pyStrOpt raw.scanning_sequence)
  if !strIn "EP" scanningSeq then false
  else
    let imageTypeOk :=
      if truthyStr raw.image_type then
        let imageTypeStr := pyToUpper (pyStrOpt raw.image_type)
        ["EPI", "MOSAIC", "FMRI", "DTI", "DWI", "BOLD"].any
          (fun ind => strIn ind imageTypeStr)
      else true
    if !imageTypeOk then false
    else
      let manufacturer := pyToUpper (pyStrOpt raw.manufacturer)
      let manufacturerFound :=
        ["SIEMENS", "GE", "PHILIPS"].any (fun s => strIn s manufacturer)
      if !manufacturerFound then false
      else
        raw.slice_timing_siemens.isSome || raw.trigger_time.isSome ||
        raw.rtia_timer.isSome || raw.protocol_data_block.isSome ||
        raw.temporal_position_identifier.isSome ||
        raw.frame_acquisition_time.isSome

/-! ## Age interpreters -/

/-- The `unit_map` of `basic_interpreter._interpret_age`, keyed on the
upper-cased final character of the age string. -/
def ageUnitWord (c : Char) : Option String :=
  if c == 'Y' then some "years"
  else if c == 'M' then some "months"
  else if c == 'W' then some "weeks"
  else if c == 'D' then some "days"
  else none

/-- `basic_interpreter._interpret_age`: for strings of length at least
4, strip the final character, look its upper-case up in the unit map,
and join the untouched numeric part with the spelled-out unit;
otherwise (and for unrecognized units) pass the string through. -/
def interpret_age : Option String → String
  | none => "–"
  | some ageStr =>
    if 4 ≤ ageStr.length then
      let num := String.mk ageStr.toList.dropLast
      let unitChar := (ageStr.toList.getLastD ' ').toUpper
      match ageUnitWord unitChar with
      | some w => num ++ " " ++ w
      | none => ageStr
    else ageStr

/-- The `unit_map` of `specific_interpreters.META_AGE` (localization
tokens instead of English words). -/
def ageUnitToken (c : Char) : Option String :=
  if c == 'Y' then some "VALUE_YEARS"
  else if c == 'M' then some "VALUE_MONTHS"
  else if c == 'W' then some "VALUE_WEEKS"
  else if c == 'D' then some "VALUE_DAYS"
  else none

/-- `specific_interpreters.META_AGE`: same decomposition as
`_interpret_age` but emitting `VALUE_*` localization tokens. -/
def META_AGE : Option String → String
  | none => "–"
  | some ageStr =>
    if 4 ≤ ageStr.length then
      let num := String.mk ageStr.toList.dropLast
      let unitChar := (ageStr.toList.getLastD ' ').toUpper
      match ageUnitToken unitChar with
      | some w => num ++ " " ++ w
      | none => ageStr
    else ageStr

/-! ## Settings manager (settings/settings.py) -/

/-- `FilterSettings`: per-category and per-field visibility maps. -/
structure FilterSettingsM where
  categories : List (String × Bool)
  fields : List (String × Bool)
deriving DecidableEq

/-- The JSON document `_save_settings` writes to `settings.json`
(`Settings.to_dict`). -/
structure SavedSettings where
  language : String
  filters : FilterSettingsM
deriving DecidableEq

/-- The state of the `SettingsManager` singleton: the live settings,
the one-shot initialization flag, the filter data remembered from the
settings file by `_load_settings`, and the current content of the
settings file (`none` when nothing has been written yet). -/
structure SettingsState where
  language : String
  filters : FilterSettingsM
  initialized : Bool
  storedFilterFields : List (String × Bool)
  storedFilterCategories : List (String × Bool)
  savedFile : Option SavedSettings
deriving DecidableEq

/-- `FilterSettings.is_field_visible` via `SettingsManager`: look the
field up in the visibility map, defaulting to visible. -/
def is_field_visible (st : SettingsState) (fieldIndex : String) : Bool :=
  ((st.filters.fields.lookup fieldIndex).getD true)

/-- `Settings.to_dict` composed with `_save_settings`. -/
def saveSettings (st : SettingsState) : SettingsState :=
  { st with savedFile := some { language := st.language, filters := st.filters } }

/-! ## Field catalog (field_organization/field_manager.py) -/

/-- A field's `tag` attribute: either a two-part tag coordinate
(converted from the JSON pair) or one of the string/special forms. -/
inductive FieldTag where
  | pair : Nat → Nat → FieldTag
  | name : String → FieldTag
deriving DecidableEq

/-- `FieldDefinition` (a dataclass in the source).  The
`_update_filtered_definitions` copy constructor copies every
attribute, so copies are modelled by the value itself. -/
structure FieldDefinition where
  index : String
  tag : FieldTag
  category : String
  priority : Int
  interpret_mode : String
  translated_name : String := ""
deriving DecidableEq

/-- `CATEGORY_ORDER`. -/
def CATEGORY_ORDER : List String :=
  ["FILE_INFO", "PATIENT_INFO", "INSTITUTION_EQUIPMENT", "STUDY_INFO",
   "SEQUENCE_INFO", "ACQUISITION_PARAMS", "IMAGE_GEOMETRY",
   "IMAGE_ENCODING", "SLICE_TIMING"]

/-- `CATEGORY_ORDER.index(category)` with the `ValueError` fallback to
`len(CATEGORY_ORDER)`. -/
def categoryIndex (category : String) : Nat :=
  (CATEGORY_ORDER.findIdx? (· == category)).getD CATEGORY_ORDER.length

/-- The sort key comparison of `_sort_fields`: lexicographic on
`(category index, priority, index)`. -/
def fieldKeyLe (a b : FieldDefinition) : Bool :=
  let ka := categoryIndex a.category
  let kb := categoryIndex b.category
  if ka ≠ kb then decide (ka < kb)
  else if a.priority ≠ b.priority then decide (a.priority < b.priority)
  else decide (a.index ≤ b.index)

instance : DecidableRel (fun a b : FieldDefinition => fieldKeyLe a b = true) :=
  fun a b => inferInstanceAs (Decidable (_ = true))

/-- `_sort_fields` (Python's stable `list.sort` with the tuple key). -/
def sort_fields (defs : List FieldDefinition) : List FieldDefinition :=
  List.insertionSort (fun a b => fieldKeyLe a b = true) defs

/-- The state of the `FieldManager` singleton that the verified
operations touch: the complete sorted definition list, the filtered
view, the loaded translation table, the cached language, the
`_filter_initialized` flag and the `_previous_filter_settings`
snapshot.  (The `_category_fields` index only feeds the settings UI
accessor `get_categories_with_fields` and is not modelled.) -/
structure ManagerState where
  complete : List FieldDefinition
  filtered : List FieldDefinition
  translations : List (String × String)
  current_language : String
  filterInitialized : Bool
  previousFilterSettings : List (String × Bool) × List (String × Bool)
deriving DecidableEq

/-- `_update_filtered_definitions`: rebuild the filtered list by
keeping (a value copy of) every visible definition of the complete
list, in order. -/
def update_filtered_definitions (st : SettingsState) (m : ManagerState) : ManagerState :=
  { m with filtered := m.complete.filter (fun d => is_field_visible st d.index) }

/-- The per-definition translation step of `_load_translations`:
`field_def.translated_name = translations.get(field_def.index, field_def.index)`. -/
def applyTranslation (translations : List (String × String)) (d : FieldDefinition) :
    FieldDefinition :=
  { d with translated_name := (translations.lookup d.index).getD d.index }

/-- `_load_translations`.  The language files on disk are modelled as
a fixed map `langTable` from language name to translation table, with
`none` standing for `FileNotFoundError` (which the source turns into
the empty table). -/
def load_translations (langTable : String → Option (List (String × String)))
    (st : SettingsState) (m : ManagerState) : ManagerState :=
  let translations := (langTable m.current_language).getD []
  let complete := m.complete.map (applyTranslation translations)
  update_filtered_definitions st { m with translations := translations, complete := complete }

/-- `_update_language`: pick up the settings manager's language, then
reload translations. -/
def update_language (langTable : String → Option (List (String × String)))
    (st : SettingsState) (m : ManagerState) : ManagerState :=
  load_translations langTable st { m with current_language := st.language }

/-- The `SettingsManager.language` property setter: a no-op (and no
file write) when the value is unchanged. -/
def setLanguageSettings (lang : String) (st : SettingsState) : SettingsState :=
  if st.language == lang then st
  else saveSettings { st with language := lang }

/-- `FieldManager.set_language`: store the language in settings, then
`_update_language`. -/
def set_language (langTable : String → Option (List (String × String)))
    (lang : String) (st : SettingsState) (m : ManagerState) :
    SettingsState × ManagerState :=
  let st' := setLanguageSettings lang st
  (st', update_language langTable st' m)

/-- `check_and_update_filters`: compare the settings snapshot
(`filter_settings.to_dict()`) with the last-seen one; on drift, record
the new snapshot and rebuild the filtered list. -/
def check_and_update_filters (st : SettingsState) (m : ManagerState) : ManagerState :=
  let current := (st.filters.categories, st.filters.fields)
  if m.previousFilterSettings == current then m
  else update_filtered_definitions st { m with previousFilterSettings := current }

/-- `notify_filter_update`. -/
def notify_filter_update (st : SettingsState) (m : ManagerState) : ManagerState :=
  update_filtered_definitions st m

/-- `get_field_definitions`: refresh from the settings snapshot when
the filter is initialized, then hand out the filtered list. -/
def get_field_definitions (st : SettingsState) (m : ManagerState) :
    List FieldDefinition × ManagerState :=
  let m' := if m.filterInitialized then check_and_update_filters st m else m
  (m'.filtered, m')

/-- `SettingsManager.initialize_filter_settings`: a one-shot
initializer.  When already initialized it returns immediately;
otherwise it builds the field visibility map from the complete
structure (stored value or default-visible), copies the stored
category map, flips the flag and saves the settings file. -/
def initialize_filter_settings (completeFieldStructure : List FieldDefinition)
    (st : SettingsState) : SettingsState :=
  if st.initialized then st
  else
    let allFieldIndices := completeFieldStructure.map (·.index)
    let fields := allFieldIndices.map
      (fun idx => (idx, (st.storedFilterFields.lookup idx).getD true))
    let filters : FilterSettingsM :=
      { categories := st.storedFilterCategories, fields := fields }
    saveSettings { st with filters := filters, initialized := true }

/-- `FieldManager.__init__` (the catalog `load()` operation): load the
raw definitions, apply translations, sort the complete list, run the
one-shot settings initialization with the complete structure, then
build the filtered view and mark the filter initialized. -/
def initManager (defs : List FieldDefinition)
    (langTable : String → Option (List (String × String)))
    (st : SettingsState) : SettingsState × ManagerState :=
  let m0 : ManagerState :=
    { complete := defs, filtered := [], translations := [],
      current_language := st.language, filterInitialized := false,
      previousFilterSettings := ([], []) }
  let m1 := update_language langTable st m0
  let m2 := { m1 with complete := sort_fields m1.complete }
  let st' := initialize_filter_settings m2.complete st
  let m3 := update_filtered_definitions st' m2
  (st', { m3 with filterInitialized := true })

/-! ## Spec-side multiband condition (for comparison with the code) -/

/-- The Multiband/SMS rule as the specification words it: "the gaps
between the first four elements are all equal and greater than 1" —
i.e. the three successive differences among the first four entries,
with no constraint on the total number of slices.  This definition
follows the spec's words (not the source) and exists only to be
compared against `is_multiband_pattern`. -/
def specMultibandGapsCondition (order : List Nat) : Bool :=
  match order with
  | a :: b :: c :: d :: _ =>
    let g1 : ℤ := (b : ℤ) - (a : ℤ)
    let g2 : ℤ := (c : ℤ) - (b : ℤ)
    let g3 : ℤ := (d : ℤ) - (c : ℤ)
    (g1 == g2) && (g2 == g3) && decide (1 < g1)
  | _ => false

/-! ## Lemmas about acquisition-order extraction -/

/-- The timestamp at 1-based position `p` of the timing array. -/
def timeAt (ts : List ℚ) (p : Nat) : ℚ := ts.getD (p - 1) 0

instance : IsTotal (ℚ × Nat) (fun p q => p.1 ≤ q.1) :=
  ⟨fun a b => le_total a.1 b.1⟩

instance : IsTrans (ℚ × Nat) (fun p q => p.1 ≤ q.1) :=
  ⟨fun _ _ _ h1 h2 => le_trans h1 h2⟩

lemma mem_timing_pairs (ts : List ℚ) (p : ℚ × Nat)
    (hp : p ∈ ts.zip (List.range' 1 ts.length)) :
    p.1 = timeAt ts p.2 ∧ 1 ≤ p.2 := by
  obtain ⟨i, hi, hget⟩ := List.mem_iff_getElem.1 hp
  have hlen : (ts.zip (List.range' 1 ts.length)).length = ts.length := by
    simp [List.length_zip]
  rw [hlen] at hi
  have hir : i < (List.range' 1 ts.length).length := by simpa
  have hiz : i < (ts.zip (List.range' 1 ts.length)).length := by simpa [hlen]
  have hz : (ts.zip (List.range' 1 ts.length))[i] =
      (ts[i], (List.range' 1 ts.length)[i]) := List.getElem_zip ..
  have hr : (List.range' 1 ts.length)[i] = 1 + i := by
    simpa using List.getElem_range' i hir
  rw [hz, hr] at hget
  subst hget
  refine ⟨?_, by omega⟩
  simp [timeAt, List.getD_eq_getElem?_getD, List.getElem?_eq_getElem hi]

lemma orderOf_perm (ts : List ℚ) : (orderOf ts).Perm (List.range' 1 ts.length) := by
  unfold orderOf
  have h1 := (List.perm_insertionSort (fun p q : ℚ × Nat => p.1 ≤ q.1)
    (ts.zip (List.range' 1 ts.length))).map Prod.snd
  have h2 : (ts.zip (List.range' 1 ts.length)).map Prod.snd = List.range' 1 ts.length :=
    List.map_snd_zip _ _ (by simp)
  simpa [h2] using h1

lemma orderOf_pairwise (ts : List ℚ) (hnd : ts.Nodup) :
    (orderOf ts).Pairwise (fun p q => timeAt ts p < timeAt ts q) := by
  unfold orderOf
  set pairs := ts.zip (List.range' 1 ts.length) with hpairs
  set sortedPairs := List.insertionSort (fun p q : ℚ × Nat => p.1 ≤ q.1) pairs with hsp
  have hperm : sortedPairs.Perm pairs := List.perm_insertionSort _ _
  have hle : sortedPairs.Pairwise (fun p q : ℚ × Nat => p.1 ≤ q.1) :=
    List.sorted_insertionSort _ _
  have hfst : pairs.map Prod.fst = ts := List.map_fst_zip _ _ (by simp)
  have hndsorted : (sortedPairs.map Prod.fst).Nodup :=
    ((hperm.map Prod.fst).nodup_iff).2 (hfst ▸ hnd)
  have hne : sortedPairs.Pairwise (fun p q : ℚ × Nat => p.1 ≠ q.1) :=
    List.pairwise_map.1 hndsorted
  have hlt : sortedPairs.Pairwise
      (fun p q : ℚ × Nat => timeAt ts p.2 < timeAt ts q.2) := by
    refine (hle.and hne).imp_of_mem ?_
    intro p q hp hq hpq
    have hp' := mem_timing_pairs ts p (hperm.subset hp)
    have hq' := mem_timing_pairs ts q (hperm.subset hq)
    rw [← hp'.1, ← hq'.1]
    exact lt_of_le_of_ne hpq.1 hpq.2
  exact List.pairwise_map.2 hlt

lemma orderOf_min_first (ts : List ℚ) (hnd : ts.Nodup) (p : Nat)
    (hhead : (orderOf ts).head? = some p) : ∀ x ∈ ts, timeAt ts p ≤ x := by
  intro x hx
  obtain ⟨tail, htail⟩ := List.head?_eq_some_iff.1 hhead
  obtain ⟨i, hi, hgi⟩ := List.mem_iff_getElem.1 hx
  have hmemr : i + 1 ∈ List.range' 1 ts.length :=
    List.mem_range'.2 ⟨i, hi, by omega⟩
  have hmemo : i + 1 ∈ orderOf ts := ((orderOf_perm ts).mem_iff).2 hmemr
  have hti : timeAt ts (i + 1) = x := by
    simp [timeAt, List.getD_eq_getElem?_getD, List.getElem?_eq_getElem hi, hgi]
  have hpw := orderOf_pairwise ts hnd
  rw [htail] at hmemo hpw
  rcases List.mem_cons.1 hmemo with heq | hmem
  · simp [← heq, hti]
  · exact le_of_lt (hti ▸ (List.pairwise_cons.1 hpw).1 _ hmem)

/-! # Claim theorems -/

/-- **C1.** Acquisition-order extraction over a non-empty array of
distinct timestamps succeeds and returns a permutation of the 1-based
positions `1..n`, listed in ascending order of timestamp, so the
position of the smallest timestamp comes first; on the concrete
Siemens input `[400, 0, 800, 200, 600]` it yields `[2, 4, 1, 5, 3]`. -/
theorem acquisition_order_extraction_correct :
    (∀ ts : List ℚ, ts ≠ [] → ts.Nodup →
      ∃ order, extract_acquisition_order ts = some order ∧
        order.Perm (List.range' 1 ts.length) ∧
        order.Pairwise (fun p q => timeAt ts p < timeAt ts q) ∧
        (∀ p, order.head? = some p → ∀ x ∈ ts, timeAt ts p ≤ x)) ∧
    extract_acquisition_order [400, 0, 800, 200, 600] = some [2, 4, 1, 5, 3] := by
  constructor
  · intro ts hne hnd
    refine ⟨orderOf ts, ?_, orderOf_perm ts, orderOf_pairwise ts hnd,
      fun p hp => orderOf_min_first ts hnd p hp⟩
    cases ts with
    | nil => exact absurd rfl hne
    | cons a l => rfl
  · decide

/-- **C1 witness.** The general part of
`acquisition_order_extraction_correct` applied at the concrete input
`[30, 10, 20]`. -/
theorem acquisition_order_extraction_correct_witness :
    ∃ order, extract_acquisition_order [30, 10, 20] = some order ∧
      order.Perm (List.range' 1 ([30, 10, 20] : List ℚ).length) ∧
      order.Pairwise (fun p q => timeAt [30, 10, 20] p < timeAt [30, 10, 20] q) ∧
      (∀ p, order.head? = some p → ∀ x ∈ ([30, 10, 20] : List ℚ),
        timeAt [30, 10, 20] p ≤ x) :=
  acquisition_order_extraction_correct.1 [30, 10, 20] (by decide) (by decide)

/-! ## Lemmas about pattern classification -/

lemma interleaved_odd_even_of_halves (order : List Nat)
    (h1 : (order.take (order.length / 2)).all (fun x => x % 2 == 1) = true)
    (h2 : (order.drop (order.length / 2)).all (fun x => x % 2 == 0) = true) :
    analyze_acquisition_pattern order =
      ⟨"Interleaved (Odd-Even)",
       "Odd slices first (1,3,5...), then even slices (2,4,6...)"⟩ := by
  unfold analyze_acquisition_pattern
  simp [h1, h2]

lemma interleaved_even_odd_of_halves (order : List Nat) (hne : order ≠ [])
    (h1 : (order.take (order.length / 2)).all (fun x => x % 2 == 0) = true)
    (h2 : (order.drop (order.length / 2)).all (fun x => x % 2 == 1) = true) :
    analyze_acquisition_pattern order =
      ⟨"Interleaved (Even-Odd)",
       "Even slices first (2,4,6...), then odd slices (1,3,5...)"⟩ := by
  have hfirst : ¬((order.take (order.length / 2)).all (fun x => x % 2 == 1) = true ∧
      (order.drop (order.length / 2)).all (fun x => x % 2 == 0) = true) := by
    rintro ⟨ha, hb⟩
    have htake : order.take (order.length / 2) = [] := by
      rcases List.eq_nil_or_concat (order.take (order.length / 2)) with h | ⟨_, x, h⟩
      · exact h
      · exfalso
        have hx : x ∈ order.take (order.length / 2) := by simp [h]
        have h1x := List.all_eq_true.1 ha x hx
        have h0x := List.all_eq_true.1 h1 x hx
        simp only [beq_iff_eq] at h1x h0x
        omega
    have hdrop : order.drop (order.length / 2) = [] := by
      rcases List.eq_nil_or_concat (order.drop (order.length / 2)) with h | ⟨_, x, h⟩
      · exact h
      · exfalso
        have hx : x ∈ order.drop (order.length / 2) := by simp [h]
        have h1x := List.all_eq_true.1 h2 x hx
        have h0x := List.all_eq_true.1 hb x hx
        simp only [beq_iff_eq] at h1x h0x
        omega
    have : order = [] := by
      have := List.take_append_drop (order.length / 2) order
      rw [htake, hdrop] at this
      simpa using this.symm
    exact hne this
  cases hA : ((order.take (order.length / 2)).all fun x => x % 2 == 1) with
  | false =>
    unfold analyze_acquisition_pattern
    simp [hA, h1, h2]
  | true =>
    cases hB : ((order.drop (order.length / 2)).all fun x => x % 2 == 0) with
    | false =>
      unfold analyze_acquisition_pattern
      simp [hA, hB, h1, h2]
    | true => exact absurd ⟨hA, hB⟩ hfirst

/-- **C2 counterexample.** The order `[1, 3, 5, 2, 4]` over 5 slices —
the claim's own example — is not classified Interleaved (Odd-Even) by
the code: the source splits at `n // 2 = 2`, so its "second half"
`[5, 2, 4]` contains the odd index 5, the interleaved test fails, and
the out-center heuristic (which for `n = 5` inspects only the first
element, `1 ≤ 2`) fires instead. -/
theorem interleaved_example_misclassified :
    (analyze_acquisition_pattern [1, 3, 5, 2, 4]).pattern_name = "Out-Center" ∧
    (analyze_acquisition_pattern [1, 3, 5, 2, 4]).pattern_name ≠ "Interleaved (Odd-Even)" := by
  decide

/-- **C2 (amended).** The Interleaved rule is applied first, with the
halves as the code computes them — the first `n / 2` elements versus
the rest: whenever that first part is uniformly odd and the rest
uniformly even, the classification is Interleaved (Odd-Even), and
symmetrically Even-Odd for non-empty orders.  The order
`[1, 3, 5, 2, 4]` over 5 slices (whose code-second-half `[5, 2, 4]`
is not uniformly even) classifies as Out-Center, and `[5, 4, 3, 2, 1]`
as Sequential (Descending). -/
theorem interleaved_rule_first_amended :
    (∀ order : List Nat,
      (order.take (order.length / 2)).all (fun x => x % 2 == 1) = true →
      (order.drop (order.length / 2)).all (fun x => x % 2 == 0) = true →
      (analyze_acquisition_pattern order).pattern_name = "Interleaved (Odd-Even)") ∧
    (∀ order : List Nat, order ≠ [] →
      (order.take (order.length / 2)).all (fun x => x % 2 == 0) = true →
      (order.drop (order.length / 2)).all (fun x => x % 2 == 1) = true →
      (analyze_acquisition_pattern order).pattern_name = "Interleaved (Even-Odd)") ∧
    (analyze_acquisition_pattern [1, 3, 5, 2, 4]).pattern_name = "Out-Center" ∧
    (analyze_acquisition_pattern [5, 4, 3, 2, 1]).pattern_name = "Sequential (Descending)" := by
  refine ⟨?_, ?_, by decide, by decide⟩
  · intro order h1 h2
    rw [interleaved_odd_even_of_halves order h1 h2]
  · intro order hne h1 h2
    rw [interleaved_even_odd_of_halves order hne h1 h2]

/-- **C2 witness.** The amended interleaved rules applied at the
concrete orders `[1, 3, 2, 4]` (odd-even) and `[2, 4, 1, 3]`
(even-odd). -/
theorem interleaved_rule_first_amended_witness :
    (analyze_acquisition_pattern [1, 3, 2, 4]).pattern_name = "Interleaved (Odd-Even)" ∧
    (analyze_acquisition_pattern [2, 4, 1, 3]).pattern_name = "Interleaved (Even-Odd)" :=
  ⟨interleaved_rule_first_amended.1 [1, 3, 2, 4] (by decide) (by decide),
   interleaved_rule_first_amended.2.1 [2, 4, 1, 3] (by decide) (by decide) (by decide)⟩

/-- **C6 counterexample.** The age interpreter does not strip the
leading zeros of the numeric part: `"034Y"` renders as `"034 years"`,
not `"34 years"` (the source keeps `age_str[:-1]` verbatim). -/
theorem age_leading_zero_kept :
    interpret_age (some "034Y") = "034 years" ∧
    interpret_age (some "034Y") ≠ "34 years" := by
  constructor
  · rfl
  · decide

/-- **C6 (amended).** The age interpreter decomposes DICOM age codes
by stripping the trailing unit letter and rendering the numeric part
verbatim (leading zeros included) with the spelled-out unit: `"034Y"`
maps to `"034 years"` and `"012M"` to `"012 months"` (the `META_AGE`
variant emits the localization tokens `VALUE_YEARS`/`VALUE_MONTHS`
instead of the English words). -/
theorem age_decomposition_amended :
    interpret_age (some "034Y") = "034 years" ∧
    interpret_age (some "012M") = "012 months" ∧
    META_AGE (some "034Y") = "034 VALUE_YEARS" ∧
    META_AGE (some "012M") = "012 VALUE_MONTHS" := by
  refine ⟨rfl, rfl, rfl, rfl⟩

/-- **C7.** The multiband heuristic contradicts its own documentation:
the source's comment presents `[1,5,9,13, 2,6,10,14, 3,7,11,15,
4,8,12,16]` as the MB=4 pattern the check targets, and the gaps
between its first four elements are `[4, 4, 4]` — all equal and
greater than 1, as the claim requires — yet the code computes
`min(4, len-1) = 4` gaps (the differences between the first **five**
elements, `[4, 4, 4, -11]`), rejects the pattern, and classifies it
Custom/Non-standard. -/
theorem multiband_rule_code_bug :
    specMultibandGapsCondition
      [1, 5, 9, 13, 2, 6, 10, 14, 3, 7, 11, 15, 4, 8, 12, 16] = true ∧
    is_multiband_pattern
      [1, 5, 9, 13, 2, 6, 10, 14, 3, 7, 11, 15, 4, 8, 12, 16] = false ∧
    is_center_out_pattern
      [1, 5, 9, 13, 2, 6, 10, 14, 3, 7, 11, 15, 4, 8, 12, 16] = false ∧
    is_out_center_pattern
      [1, 5, 9, 13, 2, 6, 10, 14, 3, 7, 11, 15, 4, 8, 12, 16] = false ∧
    (analyze_acquisition_pattern
      [1, 5, 9, 13, 2, 6, 10, 14, 3, 7, 11, 15, 4, 8, 12, 16]).pattern_name =
      "Custom/Non-standard" := by
  decide

/-- **C4.** GE dispatch priority: a present trigger time always wins —
the result is the full-confidence (`"Yes"`) GE Trigger Time report and
never mentions the RTIA timer source, even when the RTIA timer is also
present; a context with only the protocol data block is reported as
`"Partial"`; with all three absent the result is the not-found
report. -/
theorem ge_dispatch_priority :
    (∀ ctx : TimingContext, ∀ t, ctx.trigger_time = some t →
      interpret_ge_timing ctx =
        [("Slice Timing Available", "Yes"),
         ("Slice Timing Source", "GE Trigger Time (0018,1060)"),
         ("Trigger Time", t),
         ("Note", "Slice timing can be calculated from trigger times")] ∧
      ("Slice Timing Source", "GE RTIA Timer (0021,105E)") ∉ interpret_ge_timing ctx) ∧
    (∀ ctx : TimingContext, ∀ p, ctx.trigger_time = none → ctx.rtia_timer = none →
      ctx.protocol_data_block = some p →
      interpret_ge_timing ctx =
        [("Slice Timing Available", "Partial"),
         ("Slice Timing Source", "GE Protocol Data Block (0025,101B)"),
         ("Note", "Only acquisition order available (sequential/interleaved), no precise timing"),
         ("Warning", "Timing estimation assumes continuous acquisition (TA ≈ TR)")]) ∧
    (∀ ctx : TimingContext, ctx.trigger_time = none → ctx.rtia_timer = none →
      ctx.protocol_data_block = none →
      interpret_ge_timing ctx =
        [("Slice Timing Available", "No"),
         ("Slice Timing Note", "GE timing information not found in standard tags")]) := by
  refine ⟨?_, ?_, ?_⟩
  · intro ctx t ht
    have he : interpret_ge_timing ctx =
        [("Slice Timing Available", "Yes"),
         ("Slice Timing Source", "GE Trigger Time (0018,1060)"),
         ("Trigger Time", t),
         ("Note", "Slice timing can be calculated from trigger times")] := by
      unfold interpret_ge_timing
      rw [ht]
    refine ⟨he, ?_⟩
    rw [he]
    simp
  · intro ctx p ht hr hp
    unfold interpret_ge_timing
    rw [ht, hr, hp]
  · intro ctx ht hr hp
    unfold interpret_ge_timing
    rw [ht, hr, hp]

/-- **C4 witness.** The three GE dispatch branches exercised at
concrete contexts: trigger time present together with an RTIA timer,
protocol data block only, and all three absent. -/
theorem ge_dispatch_priority_witness :
    (interpret_ge_timing
        ⟨some "GE MEDICAL SYSTEMS", none, none, none, none, none, none, none,
         some "100.0", some "55", none, none, none⟩ =
      [("Slice Timing Available", "Yes"),
       ("Slice Timing Source", "GE Trigger Time (0018,1060)"),
       ("Trigger Time", "100.0"),
       ("Note", "Slice timing can be calculated from trigger times")] ∧
     ("Slice Timing Source", "GE RTIA Timer (0021,105E)") ∉
       interpret_ge_timing
         ⟨some "GE MEDICAL SYSTEMS", none, none, none, none, none, none, none,
          some "100.0", some "55", none, none, none⟩) ∧
    interpret_ge_timing
        ⟨some "GE MEDICAL SYSTEMS", none, none, none, none, none, none, none,
         none, none, some "block", none, none⟩ =
      [("Slice Timing Available", "Partial"),
       ("Slice Timing Source", "GE Protocol Data Block (0025,101B)"),
       ("Note", "Only acquisition order available (sequential/interleaved), no precise timing"),
       ("Warning", "Timing estimation assumes continuous acquisition (TA ≈ TR)")] ∧
    interpret_ge_timing
        ⟨some "GE MEDICAL SYSTEMS", none, none, none, none, none, none, none,
         none, none, none, none, none⟩ =
      [("Slice Timing Available", "No"),
       ("Slice Timing Note", "GE timing information not found in standard tags")] :=
  ⟨ge_dispatch_priority.1 _ "100.0" rfl,
   ge_dispatch_priority.2.1 _ "block" rfl rfl rfl,
   ge_dispatch_priority.2.2 _ rfl rfl rfl⟩

/-- **C5.** A timing context whose manufacturer string contains none
of the `SIEMENS` / `GE` / `PHILIPS` markers (case-insensitively)
yields exactly the single "Unsupported manufacturer" entry from
`interpret_slice_timing`, and the pipeline gate
`_should_interpret_slice_timing` likewise refuses such a context, so
no partial timing analysis is ever produced for it. -/
theorem unsupported_manufacturer_single_result :
    (∀ ctx : TimingContext,
      strIn "SIEMENS" (pyToUpper (pyStrOpt ctx.manufacturer)) = false →
      strIn "GE" (pyToUpper (pyStrOpt ctx.manufacturer)) = false →
      strIn "PHILIPS" (pyToUpper (pyStrOpt ctx.manufacturer)) = false →
      interpret_slice_timing ctx = [("Slice Timing", "Unsupported manufacturer")] ∧
      (interpret_slice_timing ctx).length = 1) ∧
    (∀ raw : RawMeta,
      strIn "SIEMENS" (pyToUpper (pyStrOpt raw.manufacturer)) = false →
      strIn "GE" (pyToUpper (pyStrOpt raw.manufacturer)) = false →
      strIn "PHILIPS" (pyToUpper (pyStrOpt raw.manufacturer)) = false →
      should_interpret_slice_timing raw = false) := by
  constructor
  · intro ctx h1 h2 h3
    have he : interpret_slice_timing ctx = [("Slice Timing", "Unsupported manufacturer")] := by
      unfold interpret_slice_timing
      simp [h1, h2, h3]
    exact ⟨he, by rw [he]; rfl⟩
  · intro raw h1 h2 h3
    unfold should_interpret_slice_timing
    simp only [List.any_cons, List.any_nil, h1, h2, h3, Bool.or_false, Bool.or_self,
      Bool.false_or, Bool.not_false, if_true]
    split
    · rfl
    · simp

/-- **C5 witness.** A Toshiba context: none of the three markers
occurs in `"TOSHIBA"`, the analysis result is the single unsupported
entry, and the pipeline gate rejects the corresponding raw
metadata. -/
theorem unsupported_manufacturer_single_result_witness :
    (interpret_slice_timing
        ⟨some "Toshiba", none, some "EP", none, none, none, none, none,
         none, none, none, none, some "t"⟩ =
      [("Slice Timing", "Unsupported manufacturer")] ∧
     (interpret_slice_timing
        ⟨some "Toshiba", none, some "EP", none, none, none, none, none,
         none, none, none, none, some "t"⟩).length = 1) ∧
    should_interpret_slice_timing
        ⟨some "EP", none, some "Toshiba", none, none, none, none, none, some "t"⟩ =
      false :=
  ⟨unsupported_manufacturer_single_result.1 _ (by decide) (by decide) (by decide),
   unsupported_manufacturer_single_result.2 _ (by decide) (by decide) (by decide)⟩

/-- **C9.** A Siemens context whose per-slice timing value is the
empty sequence: extraction fails (the source's `min([])` raises and is
caught), and the analyzer returns the parse-error result — `"Slice
Timing Available": "Error"` with the parse-failure message — rather
than a successful zero-slice analysis; the same result is what the
top-level dispatch returns for such a Siemens context. -/
theorem siemens_empty_timing_parse_error :
    ∀ ctx : TimingContext, ctx.slice_timing_siemens = some [] →
      interpret_siemens_timing ctx =
        [("Slice Timing Available", "Error"),
         ("Slice Timing Error", "Failed to parse timing data")] ∧
      (strIn "SIEMENS" (pyToUpper (pyStrOpt ctx.manufacturer)) = true →
        interpret_slice_timing ctx =
          [("Slice Timing Available", "Error"),
           ("Slice Timing Error", "Failed to parse timing data")]) := by
  intro ctx h
  have h1 : interpret_siemens_timing ctx =
      [("Slice Timing Available", "Error"),
       ("Slice Timing Error", "Failed to parse timing data")] := by
    unfold interpret_siemens_timing
    rw [h]
    rfl
  refine ⟨h1, fun hs => ?_⟩
  unfold interpret_slice_timing
  simp [hs, h1]

/-- **C9 witness.** The parse-error result at a concrete Siemens
context carrying an empty `MosaicRefAcqTimes` array. -/
theorem siemens_empty_timing_parse_error_witness :
    interpret_siemens_timing
        ⟨some "SIEMENS", none, some "EP", none, some 2000, none, none,
         some [], none, none, none, none, none⟩ =
      [("Slice Timing Available", "Error"),
       ("Slice Timing Error", "Failed to parse timing data")] ∧
    interpret_slice_timing
        ⟨some "SIEMENS", none, some "EP", none, some 2000, none, none,
         some [], none, none, none, none, none⟩ =
      [("Slice Timing Available", "Error"),
       ("Slice Timing Error", "Failed to parse timing data")] := by
  have h := siemens_empty_timing_parse_error
    ⟨some "SIEMENS", none, some "EP", none, some 2000, none, none,
     some [], none, none, none, none, none⟩ rfl
  exact ⟨h.1, h.2 (by decide)⟩

/-! ## Lemmas about the settings manager and field catalog -/

/-- The catalog invariant of the claims: the filtered (visible) view
is a subsequence of the complete sorted definition list in the same
relative order. -/
def catalogInv (m : ManagerState) : Prop :=
  m.filtered.Sublist m.complete

lemma language_setLanguageSettings (lang : String) (st : SettingsState) :
    (setLanguageSettings lang st).language = lang := by
  unfold setLanguageSettings saveSettings
  split
  · next h => exact (beq_iff_eq.1 h)
  · rfl

lemma setLanguageSettings_idem (lang : String) (st : SettingsState) :
    setLanguageSettings lang (setLanguageSettings lang st) = setLanguageSettings lang st := by
  conv_lhs => rw [setLanguageSettings]
  rw [language_setLanguageSettings, if_pos (beq_self_eq_true lang)]

lemma applyTranslation_idem (translations : List (String × String)) (d : FieldDefinition) :
    applyTranslation translations (applyTranslation translations d) =
      applyTranslation translations d := by
  cases d
  rfl

lemma map_applyTranslation_idem (translations : List (String × String))
    (l : List FieldDefinition) :
    (l.map (applyTranslation translations)).map (applyTranslation translations) =
      l.map (applyTranslation translations) := by
  rw [List.map_map]
  have h : applyTranslation translations ∘ applyTranslation translations =
      applyTranslation translations :=
    funext fun d => applyTranslation_idem translations d
  rw [h]

lemma update_language_idem (langTable : String → Option (List (String × String)))
    (st : SettingsState) (m : ManagerState) :
    update_language langTable st (update_language langTable st m) =
      update_language langTable st m := by
  cases m
  simp [update_language, load_translations, update_filtered_definitions,
    Function.comp_def, applyTranslation_idem]

/-- **C8.** `set_language` is idempotent: calling it twice in
succession with the same language leaves both the settings state and
the catalog (in particular every definition's translated display name
and the filtered view) exactly as after the first call. -/
theorem set_language_idempotent (langTable : String → Option (List (String × String)))
    (lang : String) (st : SettingsState) (m : ManagerState) :
    set_language langTable lang (set_language langTable lang st m).1
      (set_language langTable lang st m).2 = set_language langTable lang st m := by
  unfold set_language
  dsimp only
  rw [setLanguageSettings_idem, update_language_idem]

/-- **C8 witness.** Idempotence of `set_language` at a concrete
language table, settings state and catalog. -/
theorem set_language_idempotent_witness :
    set_language (fun _ => some [("PATIENT_NAME", "患者姓名")]) "chinese"
        (set_language (fun _ => some [("PATIENT_NAME", "患者姓名")]) "chinese"
          ⟨"english", ⟨[], []⟩, true, [], [], none⟩
          ⟨[⟨"PATIENT_NAME", FieldTag.pair 16 16, "PATIENT_INFO", 1, "none", "Patient Name"⟩],
           [⟨"PATIENT_NAME", FieldTag.pair 16 16, "PATIENT_INFO", 1, "none", "Patient Name"⟩],
           [], "english", true, ([], [])⟩).1
        (set_language (fun _ => some [("PATIENT_NAME", "患者姓名")]) "chinese"
          ⟨"english", ⟨[], []⟩, true, [], [], none⟩
          ⟨[⟨"PATIENT_NAME", FieldTag.pair 16 16, "PATIENT_INFO", 1, "none", "Patient Name"⟩],
           [⟨"PATIENT_NAME", FieldTag.pair 16 16, "PATIENT_INFO", 1, "none", "Patient Name"⟩],
           [], "english", true, ([], [])⟩).2 =
      set_language (fun _ => some [("PATIENT_NAME", "患者姓名")]) "chinese"
        ⟨"english", ⟨[], []⟩, true, [], [], none⟩
        ⟨[⟨"PATIENT_NAME", FieldTag.pair 16 16, "PATIENT_INFO", 1, "none", "Patient Name"⟩],
         [⟨"PATIENT_NAME", FieldTag.pair 16 16, "PATIENT_INFO", 1, "none", "Patient Name"⟩],
         [], "english", true, ([], [])⟩ :=
  set_language_idempotent _ _ _ _

/-- **C10.** `initialize_filter_settings` is effective at most once:
after its first call every later call — with any field structure —
returns immediately and leaves the whole settings state (the live
per-field and per-category visibility maps and the settings file
content) unchanged. -/
theorem initialize_filter_settings_once (st : SettingsState)
    (structure1 structure2 : List FieldDefinition) :
    initialize_filter_settings structure2 (initialize_filter_settings structure1 st) =
      initialize_filter_settings structure1 st := by
  have hinit : (initialize_filter_settings structure1 st).initialized = true := by
    unfold initialize_filter_settings saveSettings
    split
    · next h => exact h
    · rfl
  conv_lhs => rw [initialize_filter_settings]
  rw [if_pos hinit]

/-- **C10 witness.** The one-shot behaviour at a concrete settings
state and two different field structures. -/
theorem initialize_filter_settings_once_witness :
    initialize_filter_settings
        [⟨"PATIENT_SEX", FieldTag.pair 16 64, "PATIENT_INFO", 2, "specific", ""⟩]
        (initialize_filter_settings
          [⟨"PATIENT_NAME", FieldTag.pair 16 16, "PATIENT_INFO", 1, "none", ""⟩]
          ⟨"english", ⟨[], []⟩, false, [("PATIENT_NAME", false)], [], none⟩) =
      initialize_filter_settings
        [⟨"PATIENT_NAME", FieldTag.pair 16 16, "PATIENT_INFO", 1, "none", ""⟩]
        ⟨"english", ⟨[], []⟩, false, [("PATIENT_NAME", false)], [], none⟩ :=
  initialize_filter_settings_once _ _ _

/-- **C3.** The filtered (visible) field list is always a subsequence
of the complete sorted definition list in the same relative order, and
its length never exceeds the complete list's length: the invariant is
established by catalog construction (`load`) and preserved by every
catalog operation — language change, filter recheck, forced filter
update, and the visible-fields accessor (whose returned list is itself
such a subsequence). -/
theorem filtered_subsequence_invariant :
    (∀ defs langTable st, catalogInv (initManager defs langTable st).2) ∧
    (∀ st m, catalogInv (update_filtered_definitions st m)) ∧
    (∀ langTable st m, catalogInv (load_translations langTable st m)) ∧
    (∀ langTable lang st m, catalogInv (set_language langTable lang st m).2) ∧
    (∀ st m, catalogInv m → catalogInv (check_and_update_filters st m)) ∧
    (∀ st m, catalogInv (notify_filter_update st m)) ∧
    (∀ st m, catalogInv m → catalogInv (get_field_definitions st m).2 ∧
      ((get_field_definitions st m).1).Sublist (get_field_definitions st m).2.complete) ∧
    (∀ m, catalogInv m → m.filtered.length ≤ m.complete.length) := by
  have hupd : ∀ st m, catalogInv (update_filtered_definitions st m) := by
    intro st m
    exact List.filter_sublist m.complete
  have hchk : ∀ st m, catalogInv m → catalogInv (check_and_update_filters st m) := by
    intro st m hm
    unfold check_and_update_filters
    dsimp only
    split
    · exact hm
    · exact hupd st _
  refine ⟨?_, hupd, ?_, ?_, hchk, fun st m => hupd st m, ?_, ?_⟩
  · intro defs langTable st
    exact hupd _ _
  · intro langTable st m
    exact hupd _ _
  · intro langTable lang st m
    exact hupd _ _
  · intro st m hm
    unfold get_field_definitions
    dsimp only
    split
    · exact ⟨hchk _ _ hm, hchk _ _ hm⟩
    · exact ⟨hm, hm⟩
  · intro m hm
    exact hm.length_le

/-- **C3 witness.** The invariant-preserving operations exercised at a
concrete two-field catalog in which one field is hidden. -/
theorem filtered_subsequence_invariant_witness :
    catalogInv (check_and_update_filters
      ⟨"english", ⟨[], [("PATIENT_NAME", false)]⟩, true, [], [], none⟩
      ⟨[⟨"PATIENT_NAME", FieldTag.pair 16 16, "PATIENT_INFO", 1, "none", "Patient Name"⟩,
        ⟨"PATIENT_SEX", FieldTag.pair 16 64, "PATIENT_INFO", 2, "specific", "Sex"⟩],
       [], [], "english", true, ([], [])⟩) ∧
    ([] : List FieldDefinition).length ≤
      ([⟨"PATIENT_NAME", FieldTag.pair 16 16, "PATIENT_INFO", 1, "none", "Patient Name"⟩] :
        List FieldDefinition).length :=
  ⟨filtered_subsequence_invariant.2.2.2.2.1 _ _ (List.nil_sublist _),
   filtered_subsequence_invariant.2.2.2.2.2.2.2 ⟨_, [], [], "english", true, ([], [])⟩
     (List.nil_sublist _)⟩

end FMRIViewer
